import Mathlib

/-!
A shallow embedding of the `hypercore-protocol` endpoint (Rust port).

This development embeds the wire-format codec (`src/wire_format.rs`), the
inbound framing state machine (`Protocol::_parse`, `_parse_length`,
`_parse_message` in `src/protocol.rs`), the channel-open path
(`Protocol::feed`, `_same_key`, `_onopen`), the per-channel pre-open buffer
(`Feed::_onmessage` in `src/feed.rs`) and the handshake recording path
(`FeedStreamHack::_onhandshake`) as executable Lean functions, and proves or
refutes the specification's claims about them.

Modelling conventions:
* machine bytes are `Nat`s below 256; byte buffers are `List Nat`;
* Rust `panic!`/`unimplemented!()`/failed `assert!`/out-of-bounds slicing is
  a `Abort.fault site st` value carrying the state at the point of the fault
  (`Feed::destroy`, which is an unimplemented sentinel in the source, carries
  its reason string as `Abort.feedDestroy`);
* the XSalsa20 keystream (crate `crypto`, wrapped by `crypto_stream.rs`) is an
  external primitive; it is abstracted as a function `ks : nonce → key → index
  → byte`, and a cipher instance (`Xor`) is its `(nonce, key)` pair plus the
  stateful keystream position;
* the BLAKE2b discovery-key hash (`discovery_key`) is likewise abstracted as
  a function parameter `dkFn`;
* `protobuf::parse_from_bytes` / `read_msg2` decoding of inbound payloads is
  elided: dispatch-level functions receive already-decoded messages, while the
  length/size validation that the source performs after decoding
  (`decode_feed`) is retained;
* the dispatch boundary of the framer (`Protocol::_onmessage`) is observed as
  a trace: each dispatched frame slice is appended to `PState.frames`.
-/

set_option linter.unusedVariables false

namespace Hypercore

/-- LEB128 varint decoding as in the `integer-encoding` crate's `decode_var`:
accumulate 7-bit groups, least significant first, stopping at the first byte
with the high bit clear. -/
def decodeVarint : List Nat → Nat
  | [] => 0
  | b :: rest =>
    if b &&& 0x80 = 0 then b &&& 0x7f
    else (b &&& 0x7f) + 128 * decodeVarint rest

/-- LEB128 varint encoding, fuelled for structural recursion (the fuel is
an upper bound on the 7-bit group count; `encodeVarint` supplies `n`,
always sufficient). -/
def encodeVarintAux : Nat → Nat → List Nat
  | 0, n => [n % 128]
  | fuel + 1, n =>
    if n < 128 then [n]
    else (n % 128 + 128) :: encodeVarintAux fuel (n / 128)

/-- LEB128 varint encoding as in the `integer-encoding` crate's `encode_var`. -/
def encodeVarint (n : Nat) : List Nat := encodeVarintAux n n

/-- Source `VarInt::required_space`: number of bytes of the varint encoding. -/
def requiredSpace (n : Nat) : Nat := (encodeVarint n).length

/-- Sequential byte writes `buf[ptr..ptr+bs.length] = bs`, the effect of the
`copy_from_slice` calls in `_parse_length` / `_parse_message` (an out-of-range
`List.set` is dropped; the call sites stay in range in reachable states). -/
def writeBytes : List Nat → Nat → List Nat → List Nat
  | buf, _, [] => buf
  | buf, ptr, b :: bs => writeBytes (buf.set ptr b) (ptr + 1) bs

/-- Source `protocol.rs` `MessageType` (the `Extension` variant is called `extMsg`
here because of Lean naming restrictions; `Have` is `haveMsg` since `have` is
a keyword, and the remaining variants are suffixed for uniformity). -/
inductive MessageType where
  | feedMsg | handshakeMsg | infoMsg | haveMsg | unhaveMsg
  | wantMsg | unwantMsg | requestMsg | cancelMsg | dataMsg | extMsg
deriving DecidableEq, Repr

/-- The numeric tag of each message type (discriminants of the Rust enum). -/
def MessageType.tag : MessageType → Nat
  | .feedMsg => 0
  | .handshakeMsg => 1
  | .infoMsg => 2
  | .haveMsg => 3
  | .unhaveMsg => 4
  | .wantMsg => 5
  | .unwantMsg => 6
  | .requestMsg => 7
  | .cancelMsg => 8
  | .dataMsg => 9
  | .extMsg => 15

/-- Source `MessageType::from` (`wire_format.rs`): the panic on an unknown tag is
modelled as `none`. -/
def MessageType.fromTag : Nat → Option MessageType
  | 0 => some .feedMsg
  | 1 => some .handshakeMsg
  | 2 => some .infoMsg
  | 3 => some .haveMsg
  | 4 => some .unhaveMsg
  | 5 => some .wantMsg
  | 6 => some .unwantMsg
  | 7 => some .requestMsg
  | 8 => some .cancelMsg
  | 9 => some .dataMsg
  | 15 => some .extMsg
  | _ => none

/-- Source `protocol.rs` `Header`: a channel number and a message type. -/
structure Header where
  channel : Nat
  messageType : MessageType
deriving DecidableEq, Repr

/-- Source `Channel::MAX_CHANNELS` (`protocol.rs`). -/
def MAX_CHANNELS : Nat := 128

/-- Source `wire_format::encode_header`: `(channel << 4) | type`; the
`assert!(channel < MAX_CHANNELS)` failure is modelled as `none`. -/
def encode_header (h : Header) : Option Nat :=
  if h.channel < MAX_CHANNELS then some ((h.channel <<< 4) ||| h.messageType.tag)
  else none

/-- Source `wire_format::channel_from`: the `assert!(value < MAX_CHANNELS)` failure
is modelled as `none`. -/
def channel_from (v : Nat) : Option Nat :=
  if v < MAX_CHANNELS then some v else none

/-- Source `wire_format::decode_header`: type from the low nibble of the low byte,
channel from the remaining bits. -/
def decode_header (w : Nat) : Option Header := do
  let t ← MessageType.fromTag ((w % 256) &&& 0x0f)
  let c ← channel_from (w >>> 4)
  pure ⟨c, t⟩

/-- Source `Protocol::_parse_length` as a function of the 4-byte length buffer
`_length`, the write pointer `_pointer` and the remaining input bytes.
Returns the new `(_length, _pointer, _missing)` and the unconsumed input;
the `_too_big` sentinel (frame length over 8 MiB, or a varint running past
4 bytes without a terminator) is modelled as `none`. -/
def parseLenCore : List Nat → Nat → List Nat → Option (List Nat × Nat × Nat × List Nat)
  | len4, ptr, [] => some (len4, ptr, 0, [])
  | len4, ptr, b :: rest =>
    let len4' := len4.set ptr b
    let ptr' := ptr + 1
    if b &&& 0x80 = 0 then
      let m := decodeVarint len4'
      if 8 * 1024 * 1024 < m then none
      else some (len4', 0, m, rest)
    else if 4 ≤ ptr' then none
    else parseLenCore len4' ptr' rest

/-- Decoded `schema::Feed` message (fields `discoveryKey` and `nonce`). -/
structure FeedMsg where
  discoveryKey : List Nat
  nonce : Option (List Nat)
deriving DecidableEq, Repr

/-- Decoded `schema::Handshake` message (all fields optional in proto2;
`extensions` is a repeated string field, strings as byte lists). -/
structure HandshakeMsg where
  id : Option (List Nat)
  live : Option Bool
  userData : Option (List Nat)
  extensions : List (List Nat)
  ack : Option Bool
deriving DecidableEq, Repr

/-- Source `protocol.rs` `Message`: a decoded message. Only the `Feed` and
`Handshake` payloads are inspected by the embedded code paths; the other
nine variants keep their raw payload bytes. -/
inductive MessageV where
  | feedV (f : FeedMsg)
  | handshakeV (h : HandshakeMsg)
  | otherV (t : MessageType) (payload : List Nat)
deriving DecidableEq, Repr

/-- Source `feed.rs` `FeedEvent`. -/
inductive EventV where
  | feedEv (dk : List Nat)
  | handshakeEv
  | messageEv (m : MessageV)
deriving DecidableEq, Repr

/-- A `crypto_stream::Xor` instance: the `(nonce, key)` pair it was built
from plus the current keystream position. The keystream itself is the
abstract parameter `ks` below. -/
structure XorSt where
  nonce : List Nat
  key : List Nat
  pos : Nat
deriving DecidableEq, Repr

/-- The keystream family of the external XSalsa20 primitive:
`ks nonce key i` is byte `i` of the keystream for `(nonce, key)`. -/
abbrev KS := List Nat → List Nat → Nat → Nat

/-- Source `crypto_stream::Xor::update`: XOR the input with consecutive keystream
bytes, advancing the stored position. -/
def xorApply (ks : KS) (x : XorSt) (bytes : List Nat) : XorSt × List Nat :=
  (⟨x.nonce, x.key, x.pos + bytes.length⟩,
   bytes.mapIdx fun i b => b ^^^ ks x.nonce x.key (x.pos + i))

/-- Per-channel state (`feed.rs` `Feed`); channels are addressed by their
discovery key (the key of the endpoint's `_feeds` table). -/
structure FeedCh where
  key : Option (List Nat)
  discoveryKey : Option (List Nat)
  id : Option Nat
  remoteId : Option Nat
  closed : Bool
  buffer : Option (List MessageV)
deriving DecidableEq, Repr

/-- Source `Feed::new`: a latent channel. -/
def freshCh : FeedCh := ⟨none, none, none, none, false, some []⟩

/-- The complete endpoint state (`protocol.rs` `Protocol`), with the byte
and event traces of its two sinks appended: `pushed` records each byte
buffer handed to the transport `Stream`, `frames` records each frame slice
handed to `_onmessage`, and `events` records emitter events. -/
structure PState where
  idB : List Nat
  live : Bool
  ack : Bool
  userData : Option (List Nat)
  extensions : List (List Nat)
  remoteIdB : Option (List Nat)
  remoteLive : Option Bool
  remoteAck : Option Bool
  remoteUserData : Option (List Nat)
  remoteExtensions : List (Option Nat)
  destroyed : Bool
  errorReason : Option String
  encrypted : Bool
  key : Option (List Nat)
  discoveryKey : Option (List Nat)
  remoteDiscoveryKey : Option (List Nat)
  feedsList : List (List Nat)
  maxFeeds : Nat
  localFeeds : List (List Nat)
  remoteFeeds : List (Option (List Nat))
  store : List (List Nat × FeedCh)
  nonceL : Option (List Nat)
  remoteNonce : Option (List Nat)
  xorL : Option XorSt
  remoteXor : Option XorSt
  needsKey : Bool
  lengthBuf : List Nat
  missing : Nat
  buf : Option (List Nat)
  pointer : Nat
  dataS : Option (List Nat × Nat)
  keepAlive : Nat
  remoteKeepAlive : Nat
  pushed : List (List Nat)
  frames : List (List Nat)
  events : List EventV
deriving DecidableEq, Repr

/-- A fatal abort: a Rust panic (`unimplemented!()` sentinel, failed
assertion, slice-length mismatch, unwrap of `None`), or the unimplemented
`Feed::destroy(reason)`. The state at the point of the fault is carried. -/
inductive Abort where
  | fault (site : String) (st : PState)
  | feedDestroy (reason : String) (st : PState)
deriving DecidableEq, Repr

/-- The endpoint state at the point of an abort. -/
def Abort.state : Abort → PState
  | .fault _ st => st
  | .feedDestroy _ st => st

/-- The endpoint state an execution ends in, whether or not it aborted. -/
def outState : Except Abort PState → PState
  | .ok st => st
  | .error a => a.state

/-- Source `_feeds` lookup (`HashMap::get`), association list keyed by discovery
key. -/
def storeLookup : List (List Nat × FeedCh) → List Nat → Option FeedCh
  | [], _ => none
  | p :: ps, dk => if p.1 = dk then some p.2 else storeLookup ps dk

/-- Source `_feeds` insert-or-replace (`HashMap::insert`). -/
def storeSet : List (List Nat × FeedCh) → List Nat → FeedCh → List (List Nat × FeedCh)
  | [], dk, ch => [(dk, ch)]
  | p :: ps, dk, ch => if p.1 = dk then (dk, ch) :: ps else p :: storeSet ps dk ch

/-- Decrypt a chunk through the remote cipher when one is installed
(the in-place `remote_xor.update` at the top of `Protocol::_parse`). -/
def decryptChunk (ks : KS) (st : PState) (bytes : List Nat) : PState × List Nat :=
  match st.remoteXor with
  | some x =>
    let (x', out) := xorApply ks x bytes
    ({ st with remoteXor := some x' }, out)
  | none => (st, bytes)

/-- Source `Protocol::_parse_length` lifted to the endpoint state: one run of the
length-reading loop from offset `start`, returning the new offset. -/
def parseLenStep (st : PState) (bytes : List Nat) (start : Nat) :
    Except Abort (PState × Nat) :=
  match parseLenCore st.lengthBuf st.pointer (bytes.drop start) with
  | none => .error (.fault "_too_big" st)
  | some (l4, p, m, rest) =>
    .ok ({ st with lengthBuf := l4, pointer := p, missing := m },
         bytes.length - rest.length)

/-- Source `Protocol::_parse_message`: one payload-reading step from offset
`start`.

* If the chunk reaches the frame end and no incomplete frame is buffered, the
  frame slice `bytes[start..start+missing]` is dispatched.
* If a incomplete frame is buffered in `_buf`, the source copies
  `bytes[start..]` into `buf[_pointer..]` with `copy_from_slice`, which
  panics unless the two lengths agree, i.e. unless the chunk ends exactly
  at the frame end; it then dispatches the slice `[start=0, end=bytes.len())`
  of the refilled buffer, `end` having been computed from the incoming
  chunk rather than the buffer.
* Otherwise the tail of the chunk is copied into `_buf` and all input is
  consumed. -/
def parseMsgStep (st : PState) (bytes : List Nat) (start : Nat) :
    Except Abort (PState × Nat) :=
  let bLen := bytes.length
  let endP := start + st.missing
  if endP ≤ bLen then
    let ret := endP
    match st.buf with
    | some b =>
      if bLen - start ≠ b.length - st.pointer then
        .error (.fault "copy_from_slice length mismatch" st)
      else
        let data := writeBytes b st.pointer (bytes.drop start)
        let st1 := { st with buf := none, missing := 0, pointer := 0 }
        let st2 := if st1.encrypted ∧ st1.key = none then
            { st1 with needsKey := true } else st1
        .ok ({ st2 with frames := st2.frames ++ [data.take bLen] }, ret)
    | none =>
      let st1 := { st with missing := 0, pointer := 0 }
      let st2 := if st1.encrypted ∧ st1.key = none then
          { st1 with needsKey := true } else st1
      .ok ({ st2 with frames := st2.frames ++ [(bytes.drop start).take st.missing] }, ret)
  else
    let st1 := if st.buf.isNone then
        { st with buf := some (List.replicate st.missing 0), pointer := 0 } else st
    let b := st1.buf.getD []
    let rem := bLen - start
    .ok ({ st1 with buf := some (writeBytes b st1.pointer (bytes.drop start)),
                    pointer := st1.pointer + rem,
                    missing := st1.missing - rem }, bLen)

/-- The work loop of `Protocol::_parse`. `decrypted` records whether a
remote cipher existed when `_parse` was entered; when one appears mid-call
the source re-enters `_parse` on the tail, unrolled here into decrypting
the tail and continuing with `decrypted = true`. The fuel only bounds the
recursion; `_parse` supplies enough for the loop to run to completion. -/
def parseIter (ks : KS) : Nat → Bool → PState → List Nat → Nat → Except Abort PState
  | 0, _, st, _, _ => .ok st
  | fuel + 1, decrypted, st, bytes, start =>
    if start < bytes.length ∧ st.destroyed = false then
      match (if 0 < st.missing then parseMsgStep st bytes start
             else parseLenStep st bytes start) with
      | .error e => .error e
      | .ok (st', start') =>
        if st'.needsKey then .ok { st' with dataS := some (bytes, start') }
        else if decrypted = false ∧ st'.remoteXor.isSome then
          let (st'', tail) := decryptChunk ks st' (bytes.drop start')
          parseIter ks fuel true st'' tail 0
        else parseIter ks fuel decrypted st' bytes start'
    else .ok st

/-- Source `Protocol::_parse`. -/
def parseRun (ks : KS) (st : PState) (bytes0 : List Nat) (start0 : Nat) :
    Except Abort PState :=
  let bytes1 := if 0 < start0 then bytes0.drop start0 else bytes0
  let decrypted := st.remoteXor.isSome
  let (st1, bytes2) := decryptChunk ks st bytes1
  parseIter ks (bytes2.length + 2) decrypted st1 bytes2 0

/-- Source `Protocol::_write`. -/
def writeP (ks : KS) (st : PState) (bytes : List Nat) : Except Abort PState :=
  parseRun ks { st with remoteKeepAlive := 0 } bytes 0

/-- Feed successive chunks to `_write`, stopping at the first abort. -/
def writeChunks (ks : KS) (st : PState) : List (List Nat) → Except Abort PState
  | [] => .ok st
  | c :: cs =>
    match writeP ks st c with
    | .error e => .error e
    | .ok st' => writeChunks ks st' cs

/-- Source `Protocol::_resume`: re-enter `_parse` on the stashed input. -/
def resumeP (ks : KS) (st : PState) : Except Abort PState :=
  match st.dataS with
  | none => .ok st
  | some (data, start) => parseRun ks { st with dataS := none } data start

/-- A protobuf length-delimited field: tag byte, varint length, bytes. -/
def pbBytesField (tag : Nat) (bs : List Nat) : List Nat :=
  tag :: (encodeVarint bs.length ++ bs)

/-- A protobuf boolean varint field. -/
def pbBoolField (tag : Nat) (b : Bool) : List Nat :=
  [tag, if b then 1 else 0]

/-- The serialized `schema::Feed` payload: field 1 `discoveryKey` (bytes),
field 2 `nonce` (optional bytes). -/
def feedPayload (f : FeedMsg) : List Nat :=
  pbBytesField 0x0a f.discoveryKey ++
    (match f.nonce with
     | some n => pbBytesField 0x12 n
     | none => [])

/-- The serialized `schema::Handshake` payload as built by `Protocol::feed`
(fields 1 `id`, 2 `live`, 3 `userData` when present, 4 `extensions`
repeated, 5 `ack`; `id`, `live` and `ack` are always set there). -/
def handshakePayload (idB : List Nat) (live : Bool) (userData : Option (List Nat))
    (extensions : List (List Nat)) (ack : Bool) : List Nat :=
  pbBytesField 0x0a idB ++ pbBoolField 0x10 live ++
    (match userData with
     | some ud => pbBytesField 0x1a ud
     | none => []) ++
    (extensions.map (pbBytesField 0x22)).flatten ++ pbBoolField 0x28 ack

/-- Source `wire_format::write_msg`: varint total length (header size plus payload
size), varint header, payload. `none` is the `encode_header` assertion. -/
def writeMsgBytes (channel : Nat) (t : MessageType) (payload : List Nat) :
    Option (List Nat) := do
  let h ← encode_header ⟨channel, t⟩
  some (encodeVarint (requiredSpace h + payload.length) ++ encodeVarint h ++ payload)

/-- Source `wire_format.rs` `test_write_info`: the encoding of
`Info { uploading: false, downloading: true }` on channel 42. -/
example :
    writeMsgBytes 42 .infoMsg ([0x08, 0x00] ++ [0x10, 0x01])
      = some [0x06, 0xa2, 0x05, 0x08, 0x00, 0x10, 0x01] := by
  decide

/-- Source `protocol.rs` `test_encode_feed`: the encoding of a Feed message with a
32-byte discovery key and no nonce on channel 42 (key bytes of
`"01234567890123456789012345678901"`). -/
example :
    writeMsgBytes 42 .feedMsg (feedPayload
        ⟨[48, 49, 50, 51, 52, 53, 54, 55, 56, 57, 48, 49, 50, 51, 52, 53, 54,
          55, 56, 57, 48, 49, 50, 51, 52, 53, 54, 55, 56, 57, 48, 49], none⟩)
      = some ([0x24, 0xa0, 0x05, 0x0a, 0x20] ++
          [48, 49, 50, 51, 52, 53, 54, 55, 56, 57, 48, 49, 50, 51, 52, 53, 54,
           55, 56, 57, 48, 49, 50, 51, 52, 53, 54, 55, 56, 57, 48, 49]) := by
  decide

/-- Source `feed.rs` `send_handshake`: the encoding of
`Handshake { id: "foo", live: true, user_data: "bar", extensions: ["baz"],
ack: true }` on channel 0. -/
example :
    writeMsgBytes 0 .handshakeMsg
        (handshakePayload [0x66, 0x6f, 0x6f] true (some [0x62, 0x61, 0x72])
          [[0x62, 0x61, 0x7a]] true)
      = some [0x14, 0x01, 0x0a, 0x03, 0x66, 0x6f, 0x6f, 0x10, 0x01, 0x1a, 0x03,
          0x62, 0x61, 0x72, 0x22, 0x03, 0x62, 0x61, 0x7a, 0x28, 0x01] := by
  decide

/-- Source `Protocol::destroy` (idempotent; the reason passed is recorded in
`errorReason`, the source's `emit('error')` being commented out) followed
by `Protocol::_close`, which calls `Feed::_onclose` on every channel of
`_feeds`; `_onclose` is an unimplemented sentinel for channels not yet
closed. -/
def destroyP (st : PState) (reason : Option String) : Except Abort PState :=
  if st.destroyed then .ok st
  else
    let st1 := { st with destroyed := true, errorReason := reason }
    if st1.store.all (fun p => p.2.closed) then
      .ok { st1 with store := [], xorL := none }
    else .error (.fault "Feed::_onclose unimplemented" st1)

/-- Source `Protocol::_same_key`: trivially true when unencrypted or while either
first discovery key is unset; a disagreement destroys the endpoint with
reason `"First shared hypercore must be the same"` and yields `false`. -/
def sameKey (st : PState) : Except Abort (PState × Bool) :=
  if st.encrypted = false then .ok (st, true)
  else
    match st.discoveryKey, st.remoteDiscoveryKey with
    | some dk, some rdk =>
      if dk = rdk then .ok (st, true)
      else
        match destroyP st (some "First shared hypercore must be the same") with
        | .error e => .error e
        | .ok st' => .ok (st', false)
    | _, _ => .ok (st, true)

/-- Source `Protocol::_feed`: resolve or create the channel registered for `dk`. -/
def feedTable (st : PState) (dk : List Nat) : PState :=
  match storeLookup st.store dk with
  | some _ => st
  | none => { st with store := storeSet st.store dk freshCh }

/-- Source `FeedStreamHack::_push`: the channel-side outbound sink. When no local
cipher is installed the pushed buffer stays zero-filled (the source only
XORs into the fresh zeroed buffer under `if let Some(xor)`). -/
def hackPush (ks : KS) (st : PState) (bytes : List Nat) : PState :=
  if st.destroyed then st
  else
    let st1 := { st with keepAlive := 0 }
    match st1.xorL with
    | some x =>
      let r := xorApply ks x bytes
      { st1 with xorL := some r.1, pushed := st1.pushed ++ [r.2] }
    | none => { st1 with pushed := st1.pushed ++ [List.replicate bytes.length 0] }

/-- The tail of `Protocol::feed` (lines 367-401): encode the Feed message
for the channel, XOR it through the local cipher unless it carries the
nonce, push it, send the Handshake on a first open, and drop (or, when
non-empty, resume into the unimplemented `Feed::_resume`) the channel's
pre-open buffer. -/
def feedFinish (ks : KS) (st : PState) (dk : List Nat) (chId : Nat)
    (fdNonce : Option (List Nat)) (first : Bool) :
    Except Abort (PState × Option (List Nat)) :=
  match writeMsgBytes chId .feedMsg (feedPayload ⟨dk, fdNonce⟩) with
  | none => .error (.fault "encode_header assertion" st)
  | some box =>
    match (if fdNonce.isNone ∧ st.encrypted then
             match st.xorL with
             | some x =>
               some ({ st with xorL := some (xorApply ks x box).1 },
                     (xorApply ks x box).2)
             | none => none
           else some (st, box)) with
    | none => .error (.fault "_xor unwrap" st)
    | some pb =>
      let st2 := { pb.1 with keepAlive := 0, pushed := pb.1.pushed ++ [pb.2] }
      if st2.destroyed then .ok (st2, none)
      else
        match (if first then
                 (writeMsgBytes chId .handshakeMsg
                   (handshakePayload st2.idB st2.live st2.userData st2.extensions
                     st2.ack)).map (hackPush ks st2)
               else some st2) with
        | none => .error (.fault "encode_header assertion" st2)
        | some st3 =>
          match storeLookup st3.store dk with
          | none => .error (.fault "_feeds lookup" st3)
          | some ch =>
            match ch.buffer with
            | none => .error (.fault "_buffer unwrap" st3)
            | some [] =>
              .ok ({ st3 with
                      store := storeSet st3.store dk { ch with buffer := none } },
                   some dk)
            | some (_ :: _) => .error (.fault "Feed::_resume unimplemented" st3)

/-- Source `Protocol::feed` (`protocol.rs` lines 290-402). `optsDk` is
`opts.discovery_key`; `dkFn` abstracts the BLAKE2b `discovery_key`
derivation; `freshNonce` stands for the random nonce drawn on a first
encrypted open. The channel handle returned by the source is represented
by the channel's discovery key. -/
def feedP (ks : KS) (dkFn : List Nat → List Nat) (st0 : PState) (keyArg : List Nat)
    (optsDk : Option (List Nat)) (freshNonce : List Nat) :
    Except Abort (PState × Option (List Nat)) :=
  if st0.destroyed then .ok (st0, none)
  else
    let dk := optsDk.getD (dkFn keyArg)
    let st := feedTable st0 dk
    match storeLookup st.store dk with
    | none => .error (.fault "_feeds lookup" st)
    | some ch0 =>
      if ch0.id.isSome then .ok (st, some dk)
      else if st.maxFeeds ≤ st.localFeeds.length then
        .error (.fault "_too_many_feeds" st)
      else
        let chId := st.localFeeds.length % 256
        let ch1 := { ch0 with id := some chId, key := some keyArg,
                              discoveryKey := some dk }
        let st1 := { st with store := storeSet st.store dk ch1,
                             localFeeds := st.localFeeds ++ [dk],
                             feedsList := st.feedsList ++ [dk] }
        if st1.key.isNone then
          let stA := { st1 with key := some keyArg, discoveryKey := some dk }
          match sameKey stA with
          | .error e => .error e
          | .ok (stB, sameOk) =>
            if sameOk = false then .ok (stB, none)
            else
              let p :=
                if stB.encrypted then
                  (let s := { stB with nonceL := some freshNonce,
                                       xorL := some ⟨freshNonce, keyArg, 0⟩ }
                   (match s.remoteNonce with
                    | some rn => { s with remoteXor := some ⟨rn, keyArg, 0⟩ }
                    | none => s, (some freshNonce : Option (List Nat))))
                else (stB, none)
              match (if p.1.needsKey then resumeP ks { p.1 with needsKey := false }
                     else .ok p.1) with
              | .error e => .error e
              | .ok stD => feedFinish ks stD dk chId p.2 true
        else feedFinish ks st1 dk chId none false

/-- The registration tail of `Protocol::_onopen`: store the channel for
`dk` in `_remote_feeds[chNum]` (a direct index assignment, out of range
being a panic) and record its remote id. -/
def onopenRegister (st : PState) (chNum : Nat) (dk : List Nat) : Except Abort PState :=
  let st1 := feedTable st dk
  if chNum < st1.remoteFeeds.length then
    match storeLookup st1.store dk with
    | none => .error (.fault "_feeds lookup" st1)
    | some ch =>
      .ok { st1 with remoteFeeds := st1.remoteFeeds.set chNum (some dk),
                     store := storeSet st1.store dk { ch with remoteId := some chNum } }
  else .error (.fault "_remote_feeds index out of bounds" st1)

/-- Source `Protocol::_onopen`, taking the already-decoded `schema::Feed`
(`parse_from_bytes` elided); the length validation of `decode_feed` is
retained, its failure ending in the unimplemented `_bad_feed` sentinel.
On the first remote Feed: record the remote discovery key, check
`_same_key`, require and store the nonce when encrypted, and install the
remote cipher when the local key is already known. -/
def onopen (st : PState) (chNum : Nat) (fd : FeedMsg) : Except Abort PState :=
  if fd.discoveryKey.length ≠ 32 then .error (.fault "_bad_feed" st)
  else if fd.nonce.any (fun n => n.length != 24) then
    .error (.fault "_bad_feed" st)
  else
    let dk := fd.discoveryKey
    if st.remoteDiscoveryKey = none then
      match sameKey { st with remoteDiscoveryKey := some dk } with
      | .error e => .error e
      | .ok (stB, sameOk) =>
        if sameOk = false then .ok stB
        else
          match (if stB.encrypted ∧ stB.remoteNonce = none then
                   match fd.nonce with
                   | none => none
                   | some n => some { stB with remoteNonce := some n }
                 else some stB) with
          | none => destroyP stB (some "Remote did not include a nonce")
          | some stC =>
            match (if stC.encrypted ∧ stC.key.isSome ∧ stC.remoteXor = none then
                     match stC.remoteNonce, stC.key with
                     | some rn, some k => some { stC with remoteXor := some ⟨rn, k, 0⟩ }
                     | _, _ => none
                   else some stC) with
            | none => .error (.fault "_remote_nonce unwrap" stC)
            | some stD => onopenRegister stD chNum dk
    else onopenRegister st chNum dk

/-- Lexicographic strict order on byte strings (Rust `Ord` for `str`). -/
def lexLt : List Nat → List Nat → Bool
  | [], [] => false
  | [], _ :: _ => true
  | _ :: _, [] => false
  | a :: as, b :: bs => if a < b then true else if b < a then false else lexLt as bs

/-- The loop of Rust `slice::binary_search`. -/
def bsearchGo (a : List (List Nat)) (x : List Nat) : Nat → Nat → Nat → Option Nat
  | 0, _, _ => none
  | fuel + 1, lo, hi =>
    if lo < hi then
      let mid := (lo + hi) / 2
      let v := a.getD mid []
      if lexLt v x then bsearchGo a x fuel (mid + 1) hi
      else if lexLt x v then bsearchGo a x fuel lo mid
      else some mid
    else none

/-- Rust `slice::binary_search` (`Ok` index as `some`). -/
def binarySearch (a : List (List Nat)) (x : List Nat) : Option Nat :=
  bsearchGo a x (a.length + 1) 0 a.length

/-- Source `sorted_index_of` (`protocol.rs`): map each needle to its binary-search
index in the haystack. -/
def sortedIndexOf (haystack needles : List (List Nat)) : List (Option Nat) :=
  needles.map (binarySearch haystack)

/-- Source `FeedStreamHack::_onhandshake`: record the remote identity fields once
and emit a `Handshake` event to the endpoint emitter; once `remote_id` is
set every later handshake is ignored. `randId` stands for the
`random_id()` fallback drawn when the handshake carries no id. -/
def onhandshakeHack (st : PState) (randId : List Nat) (hs : HandshakeMsg) : PState :=
  if st.remoteIdB.isSome then st
  else
    { st with
      remoteIdB := some (hs.id.getD randId),
      remoteLive := hs.live,
      remoteUserData := hs.userData,
      remoteExtensions := sortedIndexOf st.extensions hs.extensions,
      remoteAck := hs.ack,
      events := st.events ++ [.handshakeEv] }

/-- Source `Feed::_onmessage` (`feed.rs`) for the channel registered under `dk`:
`read_msg2` decoding is elided, the decoded message being passed directly.
Closed channels drop the message; a Handshake goes to
`FeedStreamHack::_onhandshake`; a message for an opened channel (buffer
already dropped) reaches the unimplemented `FeedEventEmitterImpl::emit`;
a pre-open message is buffered unless the buffer already holds more than
16 messages, which is the fatal
`Feed::destroy("Remote sent too many messages on an unopened feed")`. -/
def chOnMessage (st : PState) (randId : List Nat) (dk : List Nat) (msg : MessageV) :
    Except Abort PState :=
  match storeLookup st.store dk with
  | none => .error (.fault "channel lookup" st)
  | some ch =>
    if ch.closed then .ok st
    else
      match msg with
      | .handshakeV hs => .ok (onhandshakeHack st randId hs)
      | _ =>
        match ch.buffer with
        | none => .error (.fault "FeedEventEmitterImpl::emit unimplemented" st)
        | some q =>
          if 16 < q.length then
            .error (.feedDestroy "Remote sent too many messages on an unopened feed" st)
          else
            .ok { st with
                  store := storeSet st.store dk { ch with buffer := some (q ++ [msg]) } }

/-- Deliver a list of messages to the channel under `dk` in order. -/
def chOnMessages (st : PState) (randId dk : List Nat) :
    List MessageV → Except Abort PState
  | [] => .ok st
  | m :: ms =>
    match chOnMessage st randId dk m with
    | .error e => .error e
    | .ok st' => chOnMessages st' randId dk ms

/-- Source `Protocol::new`: the initial endpoint state for identity `idB` and
options (source defaults: `live = false`, `ack = false`,
`encrypted = true`, no user data, no extensions). -/
def initP (idB : List Nat) (live ack : Bool) (userData : Option (List Nat))
    (encrypted : Bool) (extensions : List (List Nat)) : PState :=
  { idB := idB, live := live, ack := ack, userData := userData,
    extensions := extensions,
    remoteIdB := none, remoteLive := none, remoteAck := none,
    remoteUserData := none, remoteExtensions := [],
    destroyed := false, errorReason := none,
    encrypted := encrypted, key := none,
    discoveryKey := none, remoteDiscoveryKey := none,
    feedsList := [], maxFeeds := 256, localFeeds := [], remoteFeeds := [],
    store := [], nonceL := none, remoteNonce := none,
    xorL := none, remoteXor := none, needsKey := false,
    lengthBuf := [0, 0, 0, 0], missing := 0, buf := none, pointer := 0,
    dataS := none, keepAlive := 0, remoteKeepAlive := 0,
    pushed := [], frames := [], events := [] }

/-- The state an execution with a return value ends in. -/
def feedOutState : Except Abort (PState × Option (List Nat)) → PState
  | .ok (s, _) => s
  | .error a => a.state

/-- The return value of a `feed` execution (`none` when it aborted). -/
def feedOutVal : Except Abort (PState × Option (List Nat)) → Option (Option (List Nat))
  | .ok (_, v) => some v
  | .error _ => none

/-- The fault site of an aborted `feed` execution. -/
def feedAbortSite : Except Abort (PState × Option (List Nat)) → Option String
  | .error (.fault s _) => some s
  | _ => none

/-- The fault site (panic) an execution ended in, `none` otherwise. -/
def abortSite : Except Abort PState → Option String
  | .error (.fault s _) => some s
  | _ => none

/-- The `Feed::destroy` reason an execution ended in, `none` otherwise. -/
def destroyReason : Except Abort PState → Option String
  | .error (.feedDestroy r _) => some r
  | _ => none

/-- The final state of a successful execution. -/
def okState : Except Abort PState → Option PState
  | .ok s => some s
  | .error _ => none

/-- A keystream of zeroes, used where runs are unencrypted and the
keystream is irrelevant. -/
def zeroKS : KS := fun _ _ _ => 0

/-- A 35-byte frame: a channel-0 Feed header byte followed by a protobuf
payload carrying a 32-byte discovery key (a frame the real dispatcher
accepts). -/
def sampleFrame : List Nat := [0x00, 0x0a, 0x20] ++ List.replicate 32 7

/-- A well-formed 37-byte input: the frame's length varint (`0x23` = 35),
the frame, and one further byte beginning the next frame's length
varint. -/
def sampleInput : List Nat := 0x23 :: sampleFrame ++ [0x05]

/-- An unencrypted endpoint in its initial state
(`ProtocolOpts { encrypted: Some(false), .. }`). -/
def plainSt : PState := initP [] false false none false []

/-- C1 (refuted; code bug): chunk-obliviousness of the write/parse path
fails. On the same 37-byte unencrypted input `sampleInput` (one complete
35-byte frame plus the first byte of the next length varint):
* fed in one `_write` call, parsing dispatches exactly the full frame and
  no fault occurs;
* split after byte 35, so that the frame straddles the boundary and the
  second chunk carries one byte beyond the frame end, the completing
  `_parse_message` hits the `copy_from_slice` length-mismatch panic and no
  frame is ever dispatched;
* split as 35/1/1 bytes, so that the completing chunk ends exactly at the
  frame end, the dispatched frame is the 1-byte slice `[0]` — the dispatch
  end is computed from the completing chunk's length rather than the
  reassembled buffer — instead of the 35-byte frame. -/
theorem parse_chunking_bug :
    (abortSite (writeChunks zeroKS plainSt [sampleInput]) = none
      ∧ (outState (writeChunks zeroKS plainSt [sampleInput])).frames = [sampleFrame])
    ∧ (abortSite (writeChunks zeroKS plainSt [sampleInput.take 35, sampleInput.drop 35])
        = some "copy_from_slice length mismatch"
      ∧ (outState (writeChunks zeroKS plainSt
          [sampleInput.take 35, sampleInput.drop 35])).frames = [])
    ∧ (abortSite (writeChunks zeroKS plainSt [sampleInput.take 35, [7], [5]]) = none
      ∧ (outState (writeChunks zeroKS plainSt
          [sampleInput.take 35, [7], [5]])).frames = [[0]]) := by
  decide

/-- A single latent channel registered under discovery key `[1]`. -/
def preopenSt : PState := { plainSt with store := [([1], freshCh)] }

/-- A non-Handshake message. -/
def sampleMsg : MessageV := .otherV .dataMsg []

/-- C2 (counterexample): seventeen non-Handshake messages received on a
channel before it is locally opened are all buffered — the seventeenth
does not trigger a destroy, and the pre-open buffer then holds 17 > 16
messages. -/
theorem preopen_buffer_counterexample :
    destroyReason (chOnMessages preopenSt [] [1] (List.replicate 17 sampleMsg)) = none
    ∧ abortSite (chOnMessages preopenSt [] [1] (List.replicate 17 sampleMsg)) = none
    ∧ ((okState (chOnMessages preopenSt [] [1] (List.replicate 17 sampleMsg))).map
        fun s => (storeLookup s.store [1]).map fun ch => ch.buffer.map List.length)
      = some (some (some 17)) := by
  decide

/-- C2 (amended): the pre-open buffer of an unopened channel holds at most
17 messages: while it holds at most 16, a further non-Handshake message is
appended; once it holds more than 16 (i.e. 17), the next non-Handshake
message triggers the fatal
`Feed::destroy("Remote sent too many messages on an unopened feed")`
(an unimplemented sentinel in the source), so the eighteenth such message
is the one that destroys. -/
theorem preopen_buffer_limit (st : PState) (randId dk : List Nat) (msg : MessageV)
    (ch : FeedCh) (q : List MessageV)
    (hch : storeLookup st.store dk = some ch)
    (hcl : ch.closed = false)
    (hhs : ∀ hs, msg ≠ .handshakeV hs)
    (hbuf : ch.buffer = some q) :
    (16 < q.length →
      chOnMessage st randId dk msg
        = .error (.feedDestroy "Remote sent too many messages on an unopened feed" st))
    ∧ (q.length ≤ 16 →
      chOnMessage st randId dk msg
        = .ok { st with
            store := storeSet st.store dk { ch with buffer := some (q ++ [msg]) } }) := by
  unfold chOnMessage
  rw [hch]
  simp only [hcl, Bool.false_eq_true, if_false]
  cases msg with
  | handshakeV hs => exact absurd rfl (hhs hs)
  | feedV f =>
    rw [hbuf]
    refine ⟨fun h => ?_, fun h => ?_⟩
    · simp only [if_pos h]
    · have h' : ¬ 16 < q.length := by omega
      simp only [if_neg h']
  | otherV t p =>
    rw [hbuf]
    refine ⟨fun h => ?_, fun h => ?_⟩
    · simp only [if_pos h]
    · have h' : ¬ 16 < q.length := by omega
      simp only [if_neg h']

/-- A latent channel whose pre-open buffer already holds 17 messages. -/
def fullBufCh : FeedCh := { freshCh with buffer := some (List.replicate 17 sampleMsg) }

/-- Witness for the amended C2: with 17 messages buffered the next one
destroys; with an empty buffer it is appended. -/
theorem preopen_buffer_limit_witness :
    chOnMessage { plainSt with store := [([1], fullBufCh)] } [] [1] sampleMsg
      = .error (.feedDestroy "Remote sent too many messages on an unopened feed"
          { plainSt with store := [([1], fullBufCh)] })
    ∧ chOnMessage preopenSt [] [1] sampleMsg
      = .ok { preopenSt with
          store := storeSet preopenSt.store [1]
            { freshCh with buffer := some ([] ++ [sampleMsg]) } } :=
  ⟨(preopen_buffer_limit _ [] [1] sampleMsg fullBufCh (List.replicate 17 sampleMsg)
      (by decide) (by decide) (fun hs h => by cases h) (by decide)).1 (by decide),
   (preopen_buffer_limit _ [] [1] sampleMsg freshCh []
      (by decide) (by decide) (fun hs h => by cases h) (by decide)).2 (by decide)⟩

theorem storeLookup_storeSet_self (s : List (List Nat × FeedCh)) (dk : List Nat)
    (ch : FeedCh) : storeLookup (storeSet s dk ch) dk = some ch := by
  induction s with
  | nil => simp [storeSet, storeLookup]
  | cons p ps ih =>
    by_cases h : p.1 = dk
    · simp [storeSet, storeLookup, h]
    · simp [storeSet, storeLookup, h, ih]

theorem storeLookup_feedTable (st : PState) (dk : List Nat) :
    storeLookup (feedTable st dk).store dk
      = some ((storeLookup st.store dk).getD freshCh) := by
  unfold feedTable
  cases h : storeLookup st.store dk with
  | some ch => simp [h]
  | none => simp [h, storeLookup_storeSet_self]

/-- Sample handshake: id `[2]`, live, no user data, no extensions, no ack. -/
def hsA : HandshakeMsg := ⟨some [2], some true, none, [], some false⟩

/-- Sample handshake with different fields. -/
def hsB : HandshakeMsg := ⟨some [3], some false, some [4], [[5]], none⟩

/-- C9: the remote identity fields (`remote_id`, `remote_live`,
`remote_ack`, `remote_user_data`, `remote_extensions`) are recorded from
the first Handshake received and a `Handshake` event is emitted then; a
later Handshake received after the remote id is set changes nothing and
emits no further event. -/
theorem handshake_recorded_once (st : PState) (r1 r2 : List Nat)
    (hs1 hs2 : HandshakeMsg) (h0 : st.remoteIdB = none) :
    (onhandshakeHack st r1 hs1).remoteIdB = some (hs1.id.getD r1)
    ∧ (onhandshakeHack st r1 hs1).remoteLive = hs1.live
    ∧ (onhandshakeHack st r1 hs1).remoteAck = hs1.ack
    ∧ (onhandshakeHack st r1 hs1).remoteUserData = hs1.userData
    ∧ (onhandshakeHack st r1 hs1).remoteExtensions
        = sortedIndexOf st.extensions hs1.extensions
    ∧ (onhandshakeHack st r1 hs1).events = st.events ++ [.handshakeEv]
    ∧ onhandshakeHack (onhandshakeHack st r1 hs1) r2 hs2 = onhandshakeHack st r1 hs1 := by
  simp [onhandshakeHack, h0]

/-- Witness for C9 at the initial endpoint state and two sample
handshakes. -/
theorem handshake_recorded_once_witness :
    (onhandshakeHack plainSt [9] hsA).remoteIdB = some (hsA.id.getD [9])
    ∧ (onhandshakeHack plainSt [9] hsA).remoteLive = hsA.live
    ∧ (onhandshakeHack plainSt [9] hsA).remoteAck = hsA.ack
    ∧ (onhandshakeHack plainSt [9] hsA).remoteUserData = hsA.userData
    ∧ (onhandshakeHack plainSt [9] hsA).remoteExtensions
        = sortedIndexOf plainSt.extensions hsA.extensions
    ∧ (onhandshakeHack plainSt [9] hsA).events = plainSt.events ++ [.handshakeEv]
    ∧ onhandshakeHack (onhandshakeHack plainSt [9] hsA) [8] hsB
        = onhandshakeHack plainSt [9] hsA :=
  handshake_recorded_once plainSt [9] [8] hsA hsB rfl

/-- C6: on the first remote Feed (no remote discovery key recorded yet) of
an encrypted endpoint with no remote nonce yet, and with the first-key
check passing: a Feed carrying no nonce destroys the endpoint with reason
`"Remote did not include a nonce"`, while a Feed carrying a 24-byte nonce
has it stored with no failure. -/
theorem first_remote_feed_nonce (st : PState) (chNum : Nat) (fd : FeedMsg)
    (hdk32 : fd.discoveryKey.length = 32)
    (hrdk : st.remoteDiscoveryKey = none)
    (henc : st.encrypted = true)
    (hrn : st.remoteNonce = none)
    (hdes : st.destroyed = false)
    (hsame : st.discoveryKey = none ∨ st.discoveryKey = some fd.discoveryKey) :
    (fd.nonce = none →
      (outState (onopen st chNum fd)).destroyed = true
      ∧ (outState (onopen st chNum fd)).errorReason
          = some "Remote did not include a nonce")
    ∧ (∀ n, fd.nonce = some n → n.length = 24 → chNum < st.remoteFeeds.length →
      abortSite (onopen st chNum fd) = none
      ∧ destroyReason (onopen st chNum fd) = none
      ∧ (outState (onopen st chNum fd)).remoteNonce = some n
      ∧ (outState (onopen st chNum fd)).destroyed = false) := by
  constructor
  · intro hn
    rcases hsame with h | h
    · by_cases hall : st.store.all (fun p => p.2.closed) <;>
        simp [onopen, sameKey, destroyP, outState, Abort.state, hdk32, hrdk, henc,
          hrn, hdes, h, hn, hall]
    · by_cases hall : st.store.all (fun p => p.2.closed) <;>
        simp [onopen, sameKey, destroyP, outState, Abort.state, hdk32, hrdk, henc,
          hrn, hdes, h, hn, hall]
  · intro n hn h24 hlen
    rcases hsame with h | h <;>
    rcases hsl : storeLookup st.store fd.discoveryKey with _ | ch <;>
    rcases hkey : st.key with _ | k <;>
    rcases hrx : st.remoteXor with _ | x <;>
    simp [onopen, sameKey, onopenRegister, outState, abortSite, destroyReason,
      feedTable, hdk32, hrdk, henc, hrn, hdes, h, hn, h24, hkey, hrx, hsl, hlen,
      storeLookup_storeSet_self]

/-- An encrypted endpoint in its initial state with remote channel slot 0
available. -/
def encSt : PState := { initP [] false false none true [] with remoteFeeds := [none] }

/-- A 24-byte nonce. -/
def nonce24 : List Nat := List.replicate 24 3

/-- A 32-byte discovery key. -/
def dk32 : List Nat := List.replicate 32 7

/-- Witness for C6: on a fresh encrypted endpoint, a first remote Feed
without a nonce destroys with the nonce reason; one with a 24-byte nonce
stores it without failure. -/
theorem first_remote_feed_nonce_witness :
    ((outState (onopen encSt 0 ⟨dk32, none⟩)).destroyed = true
      ∧ (outState (onopen encSt 0 ⟨dk32, none⟩)).errorReason
          = some "Remote did not include a nonce")
    ∧ (abortSite (onopen encSt 0 ⟨dk32, some nonce24⟩) = none
      ∧ destroyReason (onopen encSt 0 ⟨dk32, some nonce24⟩) = none
      ∧ (outState (onopen encSt 0 ⟨dk32, some nonce24⟩)).remoteNonce = some nonce24
      ∧ (outState (onopen encSt 0 ⟨dk32, some nonce24⟩)).destroyed = false) :=
  ⟨(first_remote_feed_nonce encSt 0 ⟨dk32, none⟩ (by decide) rfl rfl rfl rfl
      (Or.inl rfl)).1 rfl,
   (first_remote_feed_nonce encSt 0 ⟨dk32, some nonce24⟩ (by decide) rfl rfl rfl rfl
      (Or.inl rfl)).2 nonce24 rfl (by decide) (by decide)⟩

/-- The state a `_same_key` execution ends in. -/
def skOutState : Except Abort (PState × Bool) → PState
  | .ok (s, _) => s
  | .error a => a.state

theorem exc_bind_ok {α β : Type} (a : α) (f : α → Except Abort β) :
    (Except.ok a : Except Abort α) >>= f = f a := rfl

theorem exc_bind_error {α β : Type} (e : Abort) (f : α → Except Abort β) :
    (Except.error e : Except Abort α) >>= f = Except.error e := rfl

theorem exc_pure {α : Type} (a : α) : (pure a : Except Abort α) = Except.ok a := rfl

theorem exc_throw {α : Type} (e : Abort) :
    (throw e : Except Abort α) = Except.error e := rfl

theorem storeSet_not_all_closed (s : List (List Nat × FeedCh)) (dk : List Nat)
    (ch : FeedCh) (h : ch.closed = false) :
    (storeSet s dk ch).all (fun p => p.2.closed) = false := by
  induction s with
  | nil => simp [storeSet, h]
  | cons p ps ih =>
    by_cases hp : p.1 = dk
    · simp [storeSet, hp, h]
    · simp [storeSet, hp, List.all_cons, ih]

theorem storeSet_storeSet (s : List (List Nat × FeedCh)) (dk : List Nat)
    (a b : FeedCh) : storeSet (storeSet s dk a) dk b = storeSet s dk b := by
  induction s with
  | nil => simp [storeSet]
  | cons p ps ih =>
    by_cases hp : p.1 = dk
    · simp [storeSet, hp]
    · simp [storeSet, hp, ih]

/-- C5: the first-key agreement rule.
(i) On an encrypted, not yet destroyed endpoint with both first discovery
keys set and different, `_same_key` destroys the endpoint with reason
`"First shared hypercore must be the same"`;
(ii) when either key is unset, or encryption is disabled, or the keys
agree, it changes nothing and reports agreement;
and the check runs at both call sites:
(iii) a first local `feed` (fresh channel, no local key yet) with a
differing recorded remote discovery key ends destroyed with that reason;
(iv) a first remote Feed (`_onopen`, no remote discovery key yet) with a
differing recorded local discovery key ends destroyed with that reason. -/
theorem first_key_must_agree :
    (∀ st a b, st.encrypted = true → st.destroyed = false →
      st.discoveryKey = some a → st.remoteDiscoveryKey = some b → a ≠ b →
      (skOutState (sameKey st)).destroyed = true
      ∧ (skOutState (sameKey st)).errorReason
          = some "First shared hypercore must be the same")
    ∧ (∀ st, (st.encrypted = false ∨ st.discoveryKey = none
        ∨ st.remoteDiscoveryKey = none ∨ st.discoveryKey = st.remoteDiscoveryKey) →
      sameKey st = .ok (st, true))
    ∧ (∀ ks dkFn st keyA dk r nonce,
      st.destroyed = false → storeLookup st.store dk = none → st.key = none →
      st.encrypted = true → st.maxFeeds = 256 → st.localFeeds = [] →
      st.remoteDiscoveryKey = some r → r ≠ dk →
      (feedOutState (feedP ks dkFn st keyA (some dk) nonce)).destroyed = true
      ∧ (feedOutState (feedP ks dkFn st keyA (some dk) nonce)).errorReason
          = some "First shared hypercore must be the same")
    ∧ (∀ st chNum fd a,
      fd.discoveryKey.length = 32 → fd.nonce = none →
      st.remoteDiscoveryKey = none → st.encrypted = true → st.destroyed = false →
      st.discoveryKey = some a → a ≠ fd.discoveryKey →
      (outState (onopen st chNum fd)).destroyed = true
      ∧ (outState (onopen st chNum fd)).errorReason
          = some "First shared hypercore must be the same") := by
  refine ⟨?_, ?_, ?_, ?_⟩
  · intro st a b henc hdes hdk hrdk hne
    by_cases hall : st.store.all (fun p => p.2.closed) <;>
      simp [sameKey, destroyP, skOutState, Abort.state, henc, hdes, hdk, hrdk, hne,
        hall]
  · intro st h
    rcases h with h | h | h | h
    · simp [sameKey, h]
    · cases hr : st.remoteDiscoveryKey <;> simp [sameKey, h, hr]
    · cases hd : st.discoveryKey <;> simp [sameKey, h, hd]
    · cases hd : st.discoveryKey with
      | none => simp [sameKey, hd]
      | some v =>
        cases hr : st.remoteDiscoveryKey with
        | none => simp [sameKey, hd, hr]
        | some w =>
          rw [hd, hr] at h
          obtain rfl : v = w := by injection h
          simp [sameKey, hd, hr]
  · intro ks dkFn st keyA dk r nonce hdes hsl hkey henc hmax hloc hrdk hne
    have hne' : dk ≠ r := fun h => hne h.symm
    simp only [feedP, Option.getD, hdes, Bool.false_eq_true, if_false, feedTable, hsl]
    simp only [storeLookup_storeSet_self, storeSet_storeSet]
    simp [freshCh, hkey, henc, hmax, hloc, hrdk, hne', sameKey, destroyP,
      feedOutState, Abort.state, storeSet_not_all_closed]
  · intro st chNum fd a h32 hn hrdk henc hdes hdk hne
    have hne' : a ≠ fd.discoveryKey := hne
    by_cases hall : st.store.all (fun p => p.2.closed) <;>
      simp [onopen, sameKey, destroyP, outState, Abort.state, h32, hn, hrdk, henc,
        hdes, hdk, hne', hall]

/-- Witness for C5 at concrete endpoint states for each of the four
conjuncts. -/
theorem first_key_must_agree_witness :
    ((skOutState (sameKey
        { encSt with discoveryKey := some [1], remoteDiscoveryKey := some [2] })).destroyed
        = true
      ∧ (skOutState (sameKey
          { encSt with discoveryKey := some [1], remoteDiscoveryKey := some [2] })).errorReason
          = some "First shared hypercore must be the same")
    ∧ sameKey plainSt = .ok (plainSt, true)
    ∧ ((feedOutState (feedP zeroKS (fun _ => []) { encSt with
          remoteDiscoveryKey := some [2] } [5] (some [1]) nonce24)).destroyed = true
      ∧ (feedOutState (feedP zeroKS (fun _ => []) { encSt with
          remoteDiscoveryKey := some [2] } [5] (some [1]) nonce24)).errorReason
          = some "First shared hypercore must be the same")
    ∧ ((outState (onopen { encSt with discoveryKey := some [1] } 0
          ⟨dk32, none⟩)).destroyed = true
      ∧ (outState (onopen { encSt with discoveryKey := some [1] } 0
          ⟨dk32, none⟩)).errorReason
          = some "First shared hypercore must be the same") :=
  ⟨first_key_must_agree.1 _ [1] [2] rfl rfl rfl rfl (by decide),
   first_key_must_agree.2.1 plainSt (Or.inl rfl),
   first_key_must_agree.2.2.1 zeroKS (fun _ => []) _ [5] [1] [2] nonce24
     rfl rfl rfl rfl rfl rfl rfl (by decide),
   first_key_must_agree.2.2.2 _ 0 ⟨dk32, none⟩ [1] (by decide) rfl rfl rfl rfl rfl
     (by decide)⟩

/-- C8: on an endpoint with 256 local feeds already open
(`max_feeds = 256`), a further `feed` call for a fresh discovery key ends
in the fatal `_too_many_feeds` sentinel (`unimplemented!()` in the source;
the spec's fatal "too many feeds" destroy) before any channel is opened:
no local channel is added and the channel registered for `dk` stays
latent. -/
theorem too_many_feeds (ks : KS) (dkFn : List Nat → List Nat) (st : PState)
    (keyA dk nonce : List Nat)
    (hdes : st.destroyed = false)
    (hsl : storeLookup st.store dk = none)
    (hmax : st.maxFeeds = 256)
    (hlen : st.localFeeds.length = 256) :
    feedP ks dkFn st keyA (some dk) nonce
      = .error (.fault "_too_many_feeds" (feedTable st dk))
    ∧ (feedOutState (feedP ks dkFn st keyA (some dk) nonce)).localFeeds
        = st.localFeeds
    ∧ storeLookup (feedOutState (feedP ks dkFn st keyA (some dk) nonce)).store dk
        = some freshCh := by
  simp only [feedP, Option.getD, hdes, Bool.false_eq_true, if_false, feedTable, hsl]
  simp only [storeLookup_storeSet_self]
  simp [freshCh, hmax, hlen, feedOutState, Abort.state, feedTable, hsl,
    storeLookup_storeSet_self]

set_option maxRecDepth 4000 in
/-- Witness for C8: an endpoint with 256 one-byte local feed entries. -/
theorem too_many_feeds_witness :
    feedP zeroKS (fun _ => []) { encSt with localFeeds := List.replicate 256 [0] }
        [5] (some [1]) nonce24
      = .error (.fault "_too_many_feeds"
          (feedTable { encSt with localFeeds := List.replicate 256 [0] } [1]))
    ∧ (feedOutState (feedP zeroKS (fun _ => [])
        { encSt with localFeeds := List.replicate 256 [0] } [5] (some [1])
        nonce24)).localFeeds
        = { encSt with localFeeds := List.replicate 256 [0] }.localFeeds
    ∧ storeLookup (feedOutState (feedP zeroKS (fun _ => [])
        { encSt with localFeeds := List.replicate 256 [0] } [5] (some [1])
        nonce24)).store [1]
        = some freshCh :=
  too_many_feeds zeroKS (fun _ => []) _ [5] [1] nonce24 rfl rfl rfl (by decide)

/-- C10: `encode_header` asserts `channel < 128` (`MAX_CHANNELS`), so even
though `max_feeds` is 256, a `feed` call that would assign a local channel
number of 128 or more (the 129th and later local opens; the local key is
then already set, so this is never a first open) aborts inside
`encode_feed` with the assertion failure instead of returning a channel
handle or failing cleanly. -/
theorem feed_channel_128_aborts (ks : KS) (dkFn : List Nat → List Nat) (st : PState)
    (keyA dk nonce k0 : List Nat)
    (hdes : st.destroyed = false)
    (hsl : storeLookup st.store dk = none)
    (hkey : st.key = some k0)
    (hmax : st.maxFeeds = 256)
    (hlen : 128 ≤ st.localFeeds.length)
    (hlen2 : st.localFeeds.length < 256) :
    feedAbortSite (feedP ks dkFn st keyA (some dk) nonce)
      = some "encode_header assertion" := by
  have hnf : ¬ st.maxFeeds ≤ st.localFeeds.length := by omega
  have hmod : st.localFeeds.length % 256 = st.localFeeds.length :=
    Nat.mod_eq_of_lt hlen2
  have hch : ¬ st.localFeeds.length < MAX_CHANNELS := by
    simp only [MAX_CHANNELS]; omega
  simp only [feedP, Option.getD, hdes, Bool.false_eq_true, if_false, feedTable, hsl]
  simp only [storeLookup_storeSet_self]
  simp [freshCh, hkey, hnf, hmod, feedFinish, writeMsgBytes, encode_header, hch,
    feedAbortSite]

set_option maxRecDepth 4000 in
/-- Witness for C10: an endpoint with 128 local feeds and its key set. -/
theorem feed_channel_128_aborts_witness :
    feedAbortSite (feedP zeroKS (fun _ => [])
        { encSt with localFeeds := List.replicate 128 [0], key := some [5] }
        [5] (some [1]) nonce24)
      = some "encode_header assertion" :=
  feed_channel_128_aborts zeroKS (fun _ => []) _ [5] [1] nonce24 [5]
    rfl rfl rfl rfl (by decide) (by decide)

/-- A non-degenerate keystream for concrete encrypted runs. -/
def rampKS : KS := fun _ _ i => (i + 1) % 256

/-- C4: in `feed` with encryption enabled:
(first conjunct) the Feed message of the first locally opened channel
carries the fresh local nonce and its encoded bytes are pushed to the
transport unmodified (in the clear), followed by the channel's Handshake
pushed through `FeedStreamHack` and hence XOR'd through the freshly
installed local cipher from keystream position 0;
(second conjunct) the Feed message of a subsequently opened local channel
carries no nonce and its encoded bytes are XOR'd through the local cipher
before being pushed. -/
theorem feed_first_clear_next_encrypted :
    (∀ ks dkFn (st : PState) keyA dk nonce,
      st.destroyed = false → st.encrypted = true → st.key = none →
      st.needsKey = false → st.localFeeds = [] →
      storeLookup st.store dk = none → 0 < st.maxFeeds →
      (st.remoteDiscoveryKey = none ∨ st.remoteDiscoveryKey = some dk) →
      (feedOutState (feedP ks dkFn st keyA (some dk) nonce)).pushed
        = st.pushed ++
          [(writeMsgBytes 0 .feedMsg (feedPayload ⟨dk, some nonce⟩)).getD [],
           (xorApply ks ⟨nonce, keyA, 0⟩
             ((writeMsgBytes 0 .handshakeMsg
               (handshakePayload st.idB st.live st.userData st.extensions
                 st.ack)).getD [])).2]
      ∧ (feedOutState (feedP ks dkFn st keyA (some dk) nonce)).nonceL = some nonce
      ∧ feedOutVal (feedP ks dkFn st keyA (some dk) nonce) = some (some dk))
    ∧ (∀ ks dkFn (st : PState) keyA dk nonce k0 x0,
      st.destroyed = false → st.encrypted = true → st.key = some k0 →
      st.xorL = some x0 → storeLookup st.store dk = none →
      st.localFeeds.length < 128 → st.localFeeds.length < st.maxFeeds →
      (feedOutState (feedP ks dkFn st keyA (some dk) nonce)).pushed
        = st.pushed ++
          [(xorApply ks x0
            ((writeMsgBytes st.localFeeds.length .feedMsg
              (feedPayload ⟨dk, none⟩)).getD [])).2]
      ∧ feedOutVal (feedP ks dkFn st keyA (some dk) nonce) = some (some dk)) := by
  constructor
  · intro ks dkFn st keyA dk nonce hdes henc hkey hnk hloc hsl hmax hrdk
    have hnf : ¬ st.maxFeeds = 0 := by omega
    rcases hrdk with h | h <;> rcases hrn : st.remoteNonce with _ | rn <;>
    · simp only [feedP, Option.getD, hdes, Bool.false_eq_true, if_false, feedTable,
        hsl]
      simp only [storeLookup_storeSet_self, storeSet_storeSet]
      simp [freshCh, hkey, henc, hnk, hloc, h, hrn, hnf, hmax, sameKey, feedFinish,
        hackPush, writeMsgBytes, encode_header, MAX_CHANNELS, feedOutState,
        feedOutVal, Abort.state, storeLookup_storeSet_self, storeSet_storeSet,
        hdes]
  · intro ks dkFn st keyA dk nonce k0 x0 hdes henc hkey hxor hsl hlen hlen2
    have hnf : ¬ st.maxFeeds ≤ st.localFeeds.length := by omega
    have hmod : st.localFeeds.length % 256 = st.localFeeds.length :=
      Nat.mod_eq_of_lt (by omega)
    have hch : st.localFeeds.length < 128 := by omega
    simp only [feedP, Option.getD, hdes, Bool.false_eq_true, if_false, feedTable,
      hsl]
    simp only [storeLookup_storeSet_self, storeSet_storeSet]
    simp [freshCh, hkey, henc, hnf, hmod, hch, hxor, feedFinish, hackPush,
      writeMsgBytes, encode_header, MAX_CHANNELS, feedOutState, feedOutVal,
      Abort.state, storeLookup_storeSet_self, storeSet_storeSet, hdes]

/-- An encrypted endpoint with its key and local cipher set and one local
feed already open. -/
def encSt2 : PState :=
  { encSt with
    key := some [5]
    xorL := some ⟨nonce24, [5], 0⟩
    localFeeds := [[9]] }

/-- Witness for C4: a fresh encrypted endpoint opening its first feed, and
an endpoint with key and cipher set opening a second one. -/
theorem feed_first_clear_next_encrypted_witness :
    ((feedOutState (feedP rampKS (fun _ => []) encSt [5] (some [1])
        nonce24)).pushed
      = encSt.pushed ++
        [(writeMsgBytes 0 .feedMsg (feedPayload ⟨[1], some nonce24⟩)).getD [],
         (xorApply rampKS ⟨nonce24, [5], 0⟩
           ((writeMsgBytes 0 .handshakeMsg
             (handshakePayload encSt.idB encSt.live encSt.userData encSt.extensions
               encSt.ack)).getD [])).2]
      ∧ (feedOutState (feedP rampKS (fun _ => []) encSt [5] (some [1])
          nonce24)).nonceL = some nonce24
      ∧ feedOutVal (feedP rampKS (fun _ => []) encSt [5] (some [1]) nonce24)
          = some (some [1]))
    ∧ ((feedOutState (feedP rampKS (fun _ => []) encSt2 [5] (some [1])
          nonce24)).pushed
        = encSt2.pushed ++
          [(xorApply rampKS ⟨nonce24, [5], 0⟩
            ((writeMsgBytes encSt2.localFeeds.length .feedMsg
              (feedPayload ⟨[1], none⟩)).getD [])).2]
      ∧ feedOutVal (feedP rampKS (fun _ => []) encSt2 [5] (some [1]) nonce24)
          = some (some [1])) :=
  ⟨feed_first_clear_next_encrypted.1 rampKS (fun _ => []) encSt [5] [1] nonce24
     rfl rfl rfl rfl rfl rfl (by decide) (Or.inl rfl),
   feed_first_clear_next_encrypted.2 rampKS (fun _ => []) encSt2 [5] [1] nonce24
     [5] ⟨nonce24, [5], 0⟩ rfl rfl rfl rfl rfl (by decide) (by decide)⟩

/-- C7: for every channel number `c` in `0..127` and every message type tag
`t` in `{0..9, 15}`, encoding the header as `(c << 4) | (t & 0x0F)` and
decoding it back yields exactly `(c, t)`:
`decode_header (encode_header c t) = (c, t)`. -/
theorem header_roundtrip :
    ∀ c < 128, ∀ tg < 16, (tg < 10 ∨ tg = 15) →
      ((MessageType.fromTag tg).bind fun t => (encode_header ⟨c, t⟩).bind decode_header)
        = (MessageType.fromTag tg).map fun t => (⟨c, t⟩ : Header) := by
  decide

/-- Witness for C7 at channel 42, tag 2 (`Info`). -/
theorem header_roundtrip_witness :
    ((MessageType.fromTag 2).bind fun t => (encode_header ⟨42, t⟩).bind decode_header)
      = (MessageType.fromTag 2).map fun t => (⟨42, t⟩ : Header) :=
  header_roundtrip 42 (by decide) 2 (by decide) (by decide)

/-- C3: in the length-reading state, `_parse_length` hits the fatal
`_too_big` path (modelled as `none`) whenever (a) the terminating varint byte
arrives and the decoded frame length exceeds `8*1024*1024`, or (b) the
varint length field runs past 4 bytes without a terminating byte (high bit
clear); in neither case does parsing continue. -/
theorem parse_length_too_big :
    (∀ len4 ptr pre t post, (∀ b ∈ pre, b &&& 0x80 ≠ 0) → t &&& 0x80 = 0 →
        ptr + pre.length < 4 →
        8 * 1024 * 1024 < decodeVarint (writeBytes len4 ptr (pre ++ [t])) →
        parseLenCore len4 ptr (pre ++ t :: post) = none)
    ∧ (∀ len4 ptr bs, (∀ b ∈ bs, b &&& 0x80 ≠ 0) → ptr < 4 → 4 ≤ ptr + bs.length →
        parseLenCore len4 ptr bs = none) := by
  constructor
  · intro len4 ptr pre
    induction pre generalizing len4 ptr with
    | nil =>
      intro t post hpre ht hlen hdec
      simp only [List.nil_append, parseLenCore, ht, if_true]
      simp only [writeBytes, List.nil_append] at hdec
      simp [hdec]
    | cons b bs ih =>
      intro t post hpre ht hlen hdec
      have hb : b &&& 0x80 ≠ 0 := hpre b (by simp)
      simp only [List.cons_append, parseLenCore, if_neg hb]
      have hlt : ¬ 4 ≤ ptr + 1 := by simp at hlen; omega
      simp only [if_neg hlt]
      exact ih (len4.set ptr b) (ptr + 1) t post
        (fun x hx => hpre x (by simp [hx])) ht (by simp at hlen ⊢; omega)
        (by simpa [writeBytes] using hdec)
  · intro len4 ptr bs
    induction bs generalizing len4 ptr with
    | nil => intro _ h1 h2; simp at h2; omega
    | cons b bs ih =>
      intro hbs hp h4
      have hb : b &&& 0x80 ≠ 0 := hbs b (by simp)
      simp only [parseLenCore, if_neg hb]
      by_cases hge : 4 ≤ ptr + 1
      · simp [hge]
      · simp only [if_neg hge]
        exact ih (len4.set ptr b) (ptr + 1)
          (fun x hx => hbs x (by simp [hx])) (by omega) (by simp at h4 ⊢; omega)

/-- Witness for C3: a 4-byte varint decoding to `2^28 - 1 > 8 MiB`, and four
continuation bytes with no terminator; both are rejected. -/
theorem parse_length_too_big_witness :
    parseLenCore [0, 0, 0, 0] 0 ([255, 255, 255] ++ 127 :: []) = none
    ∧ parseLenCore [0, 0, 0, 0] 0 [128, 128, 128, 128] = none :=
  ⟨parse_length_too_big.1 [0, 0, 0, 0] 0 [255, 255, 255] 127 []
      (by decide) (by decide) (by decide) (by decide),
   parse_length_too_big.2 [0, 0, 0, 0] 0 [128, 128, 128, 128]
      (by decide) (by decide) (by decide)⟩

end Hypercore
